import Mathlib

/-!
Verification of the post-processing reconstruction layer of
`lartpc_mlreco3d` (file `analysis/post_processing/reconstruction/kinematics.py`):
the three processors `ParticleSemanticsProcessor`, `ParticlePropertiesProcessor`
and `MomentumProcessor` are embedded shallowly and their contracts are checked.

Modelling conventions:
- numpy float64 values are modelled by the type `F`: a finite value is an exact
  rational `F.fin q`, and the special values `nan`, `+inf`, `-inf` are explicit
  constructors, with arithmetic following the IEEE-754 propagation rules the
  source relies on (0/0 = NaN, x/0 = ±inf for x ≠ 0, comparisons with NaN
  are false).  Exact rationals stand for floats, so "sums to 1 within floating
  tolerance" becomes "sums to exactly 1".
- Python exceptions (IndexError from numpy fancy indexing, AssertionError,
  ValueError) are modelled by `Except Err`; a processor that raises returns
  `.error e`, one that completes returns `.ok` with the updated particles.
- The domain tables `SHP_TO_PID`, `SHP_TO_PRIMARY`, `PID_MASSES` and the shape
  constant `TRACK_SHP` are imported by the source from `mlreco.utils.globals`,
  a module not part of this core; the processors here take them as explicit
  read-only parameters, matching the spec's description of them as static
  tables supplied by a shared domain-constants collaborator.
- `Interaction._update_particle_info`, called after each particle loop, lives
  outside this core and touches only interaction-level caches, never the
  particle fields the claims are about; the event state is therefore modelled
  as the list of particles.
-/

/-- An IEEE-754-style scalar: an exact finite value or one of the special
values NaN, +inf, -inf.  Stands for a numpy float64 entry. -/
inductive F where
  | fin (q : ℚ)
  | nan
  | pinf
  | ninf
deriving DecidableEq, Repr

namespace F

/-- IEEE addition: NaN propagates, opposite infinities give NaN. -/
def add : F → F → F
  | nan, _ => nan
  | _, nan => nan
  | pinf, ninf => nan
  | ninf, pinf => nan
  | pinf, _ => pinf
  | _, pinf => pinf
  | ninf, _ => ninf
  | _, ninf => ninf
  | fin a, fin b => fin (a + b)

/-- IEEE negation. -/
def neg : F → F
  | fin a => fin (-a)
  | nan => nan
  | pinf => ninf
  | ninf => pinf

/-- IEEE subtraction. -/
def sub (a b : F) : F := add a (neg b)

/-- IEEE multiplication: NaN propagates, inf * 0 = NaN, signs otherwise. -/
def mul : F → F → F
  | nan, _ => nan
  | _, nan => nan
  | pinf, pinf => pinf
  | pinf, ninf => ninf
  | ninf, pinf => ninf
  | ninf, ninf => pinf
  | pinf, fin b => if b = 0 then nan else if 0 < b then pinf else ninf
  | fin a, pinf => if a = 0 then nan else if 0 < a then pinf else ninf
  | ninf, fin b => if b = 0 then nan else if 0 < b then ninf else pinf
  | fin a, ninf => if a = 0 then nan else if 0 < a then ninf else pinf
  | fin a, fin b => fin (a * b)

/-- IEEE division: 0/0 = NaN, x/0 = ±inf for finite x ≠ 0, x/±inf = 0,
inf/inf = NaN.  (The model has no signed zero.) -/
def div : F → F → F
  | nan, _ => nan
  | _, nan => nan
  | fin a, fin b =>
      if b = 0 then (if a = 0 then nan else if 0 < a then pinf else ninf)
      else fin (a / b)
  | pinf, fin b => if b < 0 then ninf else pinf
  | ninf, fin b => if b < 0 then pinf else ninf
  | fin _, pinf => fin 0
  | fin _, ninf => fin 0
  | pinf, pinf => nan
  | pinf, ninf => nan
  | ninf, pinf => nan
  | ninf, ninf => nan

/-- IEEE `≤` as a Bool: any comparison involving NaN is false. -/
def le : F → F → Bool
  | nan, _ => false
  | _, nan => false
  | ninf, _ => true
  | _, ninf => false
  | fin a, fin b => a ≤ b
  | fin _, pinf => true
  | pinf, pinf => true
  | pinf, fin _ => false

/-- IEEE `≥` as a Bool. -/
def ge (a b : F) : Bool := le b a

end F

@[simp] theorem F.fin_ne_ninf (q : ℚ) : ¬ (F.fin q = F.ninf) := fun h => F.noConfusion h

@[simp] theorem F.fin_ne_nan (q : ℚ) : ¬ (F.fin q = F.nan) := fun h => F.noConfusion h

@[simp] theorem F.fin_ne_pinf (q : ℚ) : ¬ (F.fin q = F.pinf) := fun h => F.noConfusion h

/-- Sum of a vector of floats, as `np.sum` over the masked score vectors. -/
def sumF (l : List F) : F := l.foldr F.add (F.fin 0)

/-- Python exceptions raised by the three processors. -/
inductive Err where
  /-- numpy IndexError: fancy index out of range. -/
  | indexError
  /-- the `assert assigned` failure in `ParticlePropertiesProcessor.process`. -/
  | assertFailed
  /-- ValueError: PID not supported, cannot reconstruct momentum. -/
  | pidNotSupported
  /-- ValueError: must fill the KE attributes to fill the momentum. -/
  | missingKE
  /-- ValueError: must fill the `start_dir` attribute to fill the momentum. -/
  | missingDir
deriving DecidableEq, Repr

/-- A 3-vector of floats, as the `start_dir` attribute. -/
structure Vec3 where
  x : F
  y : F
  z : F
deriving DecidableEq, Repr

/-- The per-particle record the post-processors read and rewrite.
Fields mirror the attributes accessed by `kinematics.py`: `semantic_type`,
`pid_scores`, `primary_scores`, `pid`, `is_primary`, `is_contained`,
`calo_ke`, `csda_ke`, `mcs_ke`, `start_dir`, `momentum`.  The momentum is
`np.sqrt((ke+mass)**2 - mass**2) * direction` in the source; since square
roots leave ℚ the model stores the pair (squared magnitude, direction),
which determines the source's value exactly (sqrt is injective on
nonnegative reals) — the claims only concern whether the field is filled
and which kinetic energy fed it. -/
structure Particle where
  semantic_type : ℕ
  pid_scores : List F
  primary_scores : List F
  pid : ℤ
  is_primary : Bool
  is_contained : Bool
  calo_ke : ℚ
  csda_ke : ℚ
  mcs_ke : ℚ
  start_dir : Vec3
  momentum : Option (ℚ × Vec3)
deriving DecidableEq, Repr

/-- numpy fancy-index masking, `out = np.zeros(len(src)); out[range] = src[range]`:
builds the vector that keeps `src` at the indices in `range` and is zero
elsewhere; raises IndexError (`none`) if some index in `range` is out of
range. -/
def maskAssign (range : List ℕ) (src : List F) : Option (List F) :=
  if range.all (· < src.length) then
    some ((List.range src.length).map
      (fun i => if i ∈ range then src.getD i (F.fin 0) else F.fin 0))
  else none

/-- Renormalization `v /= np.sum(v)`: divide every entry by the vector's own sum (IEEE
division, so a zero sum silently produces NaN/inf entries, not an error). -/
def renorm (v : List F) : List F := v.map (fun x => F.div x (sumF v))

/-- Configuration of `ParticleSemanticsProcessor.__init__`. -/
structure SemanticsConfig where
  enforce_pid : Bool := true
  enforce_primary : Bool := true
deriving DecidableEq, Repr

namespace ParticleSemanticsProcessor

/-- First block of the per-particle loop of
`ParticleSemanticsProcessor.process` (kinematics.py lines 55-63): if
`enforce_pid`, mask `pid_scores` to `SHP_TO_PID[shape]` — first dropping
indices `≥ len(pid_scores)` — and renormalize.  `shpToPid` stands for the
static table from `mlreco.utils.globals`. -/
def enforcePidStep (shpToPid : ℕ → List ℕ) (cfg : SemanticsConfig)
    (p : Particle) : Except Err Particle :=
  if cfg.enforce_pid then
    let pid_range := (shpToPid p.semantic_type).filter (· < p.pid_scores.length)
    match maskAssign pid_range p.pid_scores with
    | some v => .ok { p with pid_scores := renorm v }
    | none => .error .indexError
  else .ok p

/-- Second block of the per-particle loop of
`ParticleSemanticsProcessor.process` (kinematics.py lines 66-73): if
`enforce_primary`, mask `primary_scores` to `SHP_TO_PRIMARY[shape]`
(no range filtering in the source) and renormalize. -/
def enforcePrimaryStep (shpToPrimary : ℕ → List ℕ) (cfg : SemanticsConfig)
    (p : Particle) : Except Err Particle :=
  if cfg.enforce_primary then
    match maskAssign (shpToPrimary p.semantic_type) p.primary_scores with
    | some v => .ok { p with primary_scores := renorm v }
    | none => .error .indexError
  else .ok p

/-- Body of the per-particle loop of `ParticleSemanticsProcessor.process`
(kinematics.py lines 50-73): the PID block followed by the primary block
(the PID block leaves `semantic_type` and `primary_scores` untouched, so
sequencing the two blocks is the loop body). -/
def processOne (shpToPid shpToPrimary : ℕ → List ℕ) (cfg : SemanticsConfig)
    (p : Particle) : Except Err Particle :=
  (enforcePidStep shpToPid cfg p).bind (enforcePrimaryStep shpToPrimary cfg)

/-- The loop of `ParticleSemanticsProcessor.process` over the particle list of one event
(the subsequent `_update_particle_info` loop only refreshes interaction-level
caches, modelled as a no-op on the particles). -/
def process (shpToPid shpToPrimary : ℕ → List ℕ) (cfg : SemanticsConfig) :
    List Particle → Except Err (List Particle)
  | [] => .ok []
  | p :: ps =>
    match processOne shpToPid shpToPrimary cfg p with
    | .error e => .error e
    | .ok p1 =>
      match process shpToPid shpToPrimary cfg ps with
      | .error e => .error e
      | .ok ps1 => .ok (p1 :: ps1)

end ParticleSemanticsProcessor

/-- Modelled from the spec: the shape constant for "track" from
`mlreco.utils.globals` (module not under src/); the spec only requires it to
be a distinguished shape value. -/
def TRACK_SHP : ℕ := 1

/-- Configuration of `ParticlePropertiesProcessor.__init__`: the two ordered
threshold mappings (insertion order kept, hence association lists) and the
optional primary threshold. -/
structure PropertiesConfig where
  em_pid_thresholds : List (ℕ × ℚ) := []
  track_pid_thresholds : List (ℕ × ℚ) := []
  primary_threshold : Option ℚ := none
deriving DecidableEq, Repr

namespace ParticlePropertiesProcessor

/-- The threshold walk of `ParticlePropertiesProcessor.process`
(kinematics.py lines 138-146), on the private copy `scores = np.copy(p.pid_scores)`:
for each `(k, v)` in order, if `scores[k] >= v` assign `k` and stop, else
`scores *= 1/(1 - scores[k])` and continue.  Returns `.ok (some k)` on
assignment, `.ok none` when the mapping is exhausted unassigned, and
IndexError when a configured class index is outside the score vector. -/
def walkAssign : List (ℕ × ℚ) → List F → Except Err (Option ℕ)
  | [], _ => .ok none
  | (k, v) :: rest, scores =>
    match scores[k]? with
    | none => .error .indexError
    | some s =>
      if F.ge s (F.fin v) then .ok (some k)
      else walkAssign rest
        (scores.map (fun x => F.mul x (F.div (F.fin 1) (F.sub (F.fin 1) s))))

/-- First block of the per-particle loop of
`ParticlePropertiesProcessor.process` (kinematics.py lines 134-149): pick
the track mapping for track shapes and the EM mapping otherwise; when that
mapping is non-empty run the threshold walk on a copy of `pid_scores`,
writing the assigned class into `pid` and raising the `assert assigned`
failure if the walk exhausts the mapping. -/
def adjustPid (cfg : PropertiesConfig) (p : Particle) : Except Err Particle :=
  let pid_thresholds :=
    if p.semantic_type = TRACK_SHP then cfg.track_pid_thresholds
    else cfg.em_pid_thresholds
  if pid_thresholds.length ≠ 0 then
    match walkAssign pid_thresholds p.pid_scores with
    | .error e => .error e
    | .ok (some k) => .ok { p with pid := (k : ℤ) }
    | .ok none => .error .assertFailed
  else .ok p

/-- Second block of the per-particle loop (kinematics.py lines 152-153):
when `primary_threshold` is set, overwrite `is_primary` with
`primary_scores[1] >= primary_threshold`. -/
def adjustPrimary (cfg : PropertiesConfig) (p : Particle) : Except Err Particle :=
  match cfg.primary_threshold with
  | some t =>
    match p.primary_scores[1]? with
    | none => .error .indexError
    | some s => .ok { p with is_primary := F.ge s (F.fin t) }
  | none => .ok p

/-- Body of the per-particle loop of `ParticlePropertiesProcessor.process`
(kinematics.py lines 133-153): the PID adjustment followed by the primary
adjustment (the PID block leaves `primary_scores` untouched, so sequencing
the two blocks is the loop body). -/
def processOne (cfg : PropertiesConfig) (p : Particle) : Except Err Particle :=
  (adjustPid cfg p).bind (adjustPrimary cfg)

/-- The loop of `ParticlePropertiesProcessor.process` over one event's particle list
(the trailing `_update_particle_info` loop only refreshes interaction
caches). -/
def process (cfg : PropertiesConfig) :
    List Particle → Except Err (List Particle)
  | [] => .ok []
  | p :: ps =>
    match processOne cfg p with
    | .error e => .error e
    | .ok p1 =>
      match process cfg ps with
      | .error e => .error e
      | .ok ps1 => .ok (p1 :: ps1)

end ParticlePropertiesProcessor

/-- The four recognized kinetic-energy source selection methods of
`MomentumProcessor`. -/
inductive Method where
  | best
  | csda
  | calo
  | mcs
deriving DecidableEq, Repr

namespace MomentumProcessor

/-- The kinetic-energy selection of `MomentumProcessor.process`
(kinematics.py lines 211-224), exactly as written in the source: non-track
shapes use `calo_ke`; for tracks, `csda_ke` is used when
`(method == 'csda' or is_contained) and csda_ke > 0`, else `mcs_ke` when
`(method == 'mcs' or not is_contained) and mcs_ke > 0`, else `calo_ke`. -/
def kineticEnergy (method : Method) (p : Particle) : ℚ :=
  if p.semantic_type ≠ TRACK_SHP then p.calo_ke
  else if (method = .csda ∨ p.is_contained) ∧ 0 < p.csda_ke then p.csda_ke
  else if (method = .mcs ∨ ¬p.is_contained) ∧ 0 < p.mcs_ke then p.mcs_ke
  else p.calo_ke

/-- Body of the per-particle loop of `MomentumProcessor.process`
(kinematics.py lines 202-241): skip particles with `pid < 0`; raise for a
PID absent from the mass table (`masses` stands for `PID_MASSES` of
`mlreco.utils.globals`); resolve the kinetic energy; raise when `ke < 0`;
raise when `start_dir[0] == -inf`; otherwise fill `momentum` with
magnitude `sqrt((ke+mass)^2 - mass^2)` times the direction (the model stores
the squared magnitude with the direction). -/
def processOne (masses : ℤ → Option ℚ) (method : Method) (p : Particle) :
    Except Err Particle :=
  if p.pid < 0 then .ok p
  else match masses p.pid with
    | none => .error .pidNotSupported
    | some mass =>
      let ke := kineticEnergy method p
      if ke < 0 then .error .missingKE
      else if p.start_dir.x = F.ninf then .error .missingDir
      else .ok { p with momentum := some ((ke + mass) ^ 2 - mass ^ 2, p.start_dir) }

/-- The loop of `MomentumProcessor.process` over one event's particle list. -/
def process (masses : ℤ → Option ℚ) (method : Method) :
    List Particle → Except Err (List Particle)
  | [] => .ok []
  | p :: ps =>
    match processOne masses method p with
    | .error e => .error e
    | .ok p1 =>
      match process masses method ps with
      | .error e => .error e
      | .ok ps1 => .ok (p1 :: ps1)

end MomentumProcessor

/-! ### Modelled domain tables

The source imports `TRACK_SHP`, `SHP_TO_PID`, `SHP_TO_PRIMARY`, `PID_MASSES`
from `mlreco.utils.globals`, which is not part of this core; the concrete
tables below are modelled from the spec (§6 static domain tables, §4.1 and
the glossary) and are used to instantiate the table parameters in concrete
evaluations. -/

/-- Modelled from the spec: PID class index of the photon (the numeric
order of the PID classes is fixed by `mlreco.utils.globals`, absent from
src/; the claims depend only on the indices being distinct slots of
`pid_scores`). -/
def PHOTON_PID : ℕ := 0

/-- Modelled from the spec: PID class index of the electron. -/
def ELECTRON_PID : ℕ := 1

/-- Modelled from the spec: PID class index of the muon. -/
def MUON_PID : ℕ := 2

/-- Modelled from the spec: PID class index of the pion. -/
def PION_PID : ℕ := 3

/-- Modelled from the spec: PID class index of the proton. -/
def PROTON_PID : ℕ := 4

/-- Modelled from the spec: the shape → allowed-PID-classes table of
`mlreco.utils.globals` (§4.1: shower shapes take shower PIDs, track shapes
take track PIDs, delta/Michel shapes only a secondary electron). -/
def SHP_TO_PID : ℕ → List ℕ
  | 0 => [PHOTON_PID, ELECTRON_PID]
  | 1 => [MUON_PID, PION_PID, PROTON_PID]
  | 2 => [ELECTRON_PID]
  | 3 => [ELECTRON_PID]
  | _ => []

/-- Modelled from the spec: the shape → allowed-primary-classes table of
`mlreco.utils.globals` (`primary_scores` is the 2-vector
[not-primary, primary]; delta/Michel shapes can only be secondaries). -/
def SHP_TO_PRIMARY : ℕ → List ℕ
  | 0 => [0, 1]
  | 1 => [0, 1]
  | 2 => [0]
  | 3 => [0]
  | _ => []

/-- Modelled from the spec: the PID-class → rest-mass table of
`mlreco.utils.globals` (§8 gives the muon mass 105.66); unsupported PIDs
are absent. -/
def PID_MASSES (pid : ℤ) : Option ℚ :=
  if pid = 0 then some 0
  else if pid = 1 then some (511 / 1000)
  else if pid = 2 then some (10566 / 100)
  else if pid = 3 then some (13957 / 100)
  else if pid = 4 then some (938272 / 1000)
  else none

/-! ### Rational-level views of the masking step

The masked score vectors the enforcer builds are finite throughout the
normal (positive surviving mass) regime, so their behaviour is captured by
plain rational vectors; the lemmas below connect these views to the
`F`-valued definitions above. -/

/-- Rational view of `maskAssign` when every index is in range: keep `src`
on `range`, zero elsewhere. -/
def maskQ (range : List ℕ) (src : List ℚ) : List ℚ :=
  (List.range src.length).map (fun i => if i ∈ range then src.getD i 0 else 0)

/-- The surviving mass of a masked score vector. -/
def maskedMass (range : List ℕ) (src : List ℚ) : ℚ := (maskQ range src).sum

/-- Rational view of mask-then-renormalize. -/
def maskNorm (range : List ℕ) (src : List ℚ) : List ℚ :=
  (maskQ range src).map (fun q => q / maskedMass range src)

/-! ### Concrete instances used in evaluations -/

/-- A contained track with a positive CSDA estimate and a different
calorimetric estimate; exercises the kinetic-energy selection. -/
def pContainedTrack : Particle :=
  { semantic_type := TRACK_SHP
    pid_scores := []
    primary_scores := []
    pid := (MUON_PID : ℤ)
    is_primary := true
    is_contained := true
    calo_ke := 45
    csda_ke := 50
    mcs_ke := -1
    start_dir := ⟨F.fin 0, F.fin 0, F.fin 1⟩
    momentum := none }

/-- A track-shaped particle whose PID scores live entirely on the shower
classes, so masking to the track classes leaves zero surviving mass. -/
def pZeroMass : Particle :=
  { semantic_type := TRACK_SHP
    pid_scores := [F.fin (1/2), F.fin (1/2), F.fin 0, F.fin 0, F.fin 0]
    primary_scores := [F.fin (3/10), F.fin (7/10)]
    pid := -1
    is_primary := false
    is_contained := true
    calo_ke := -1
    csda_ke := -1
    mcs_ke := -1
    start_dir := ⟨F.fin 0, F.fin 0, F.fin 1⟩
    momentum := none }

/-- The spec's §8 threshold-walk configuration:
`track_pid_thresholds` mapping muon to 0.8, pion to 0.5 and proton to 0.0,
in that order. -/
def walkExampleConfig : PropertiesConfig :=
  { em_pid_thresholds := []
    track_pid_thresholds := [(MUON_PID, 4/5), (PION_PID, 1/2), (PROTON_PID, 0)]
    primary_threshold := none }

/-- The spec's §8 track particle scoring muon 0.3, pion 0.6, proton 0.1. -/
def pWalk : Particle :=
  { semantic_type := TRACK_SHP
    pid_scores := [F.fin 0, F.fin 0, F.fin (3/10), F.fin (3/5), F.fin (1/10)]
    primary_scores := [F.fin (3/10), F.fin (7/10)]
    pid := -1
    is_primary := false
    is_contained := true
    calo_ke := 45
    csda_ke := 50
    mcs_ke := -1
    start_dir := ⟨F.fin 0, F.fin 0, F.fin 1⟩
    momentum := none }

/-- A threshold mapping without a catch-all zero-threshold entry. -/
def noCatchAllConfig : PropertiesConfig :=
  { em_pid_thresholds := []
    track_pid_thresholds := [(PHOTON_PID, 9/10)]
    primary_threshold := none }

/-- A track particle failing the single 0.9 threshold of
`noCatchAllConfig`. -/
def pUncovered : Particle :=
  { semantic_type := TRACK_SHP
    pid_scores := [F.fin (1/2)]
    primary_scores := [F.fin (3/10), F.fin (7/10)]
    pid := -1
    is_primary := false
    is_contained := true
    calo_ke := 45
    csda_ke := 50
    mcs_ke := -1
    start_dir := ⟨F.fin 0, F.fin 0, F.fin 1⟩
    momentum := none }

/-- A shower-shaped electron whose calorimetric estimate is exactly zero:
its resolved kinetic energy is not positive. -/
def pKeZero : Particle :=
  { semantic_type := 0
    pid_scores := []
    primary_scores := []
    pid := (ELECTRON_PID : ℤ)
    is_primary := true
    is_contained := true
    calo_ke := 0
    csda_ke := -1
    mcs_ke := -1
    start_dir := ⟨F.fin 0, F.fin 0, F.fin 1⟩
    momentum := none }

/-- A contained track with no positive kinetic-energy estimate at all
(`csda_ke = mcs_ke = calo_ke = -1`). -/
def pAllNegKe : Particle :=
  { semantic_type := TRACK_SHP
    pid_scores := []
    primary_scores := []
    pid := (MUON_PID : ℤ)
    is_primary := true
    is_contained := true
    calo_ke := -1
    csda_ke := -1
    mcs_ke := -1
    start_dir := ⟨F.fin 0, F.fin 0, F.fin 1⟩
    momentum := none }

/-- A shower-shaped proton candidate with a zero calorimetric estimate,
used against the momentum fill condition. -/
def pKeZeroB : Particle :=
  { semantic_type := 0
    pid_scores := []
    primary_scores := []
    pid := (PROTON_PID : ℤ)
    is_primary := false
    is_contained := false
    calo_ke := 0
    csda_ke := -1
    mcs_ke := -1
    start_dir := ⟨F.fin 1, F.fin 0, F.fin 0⟩
    momentum := none }

/-- A particle with the undetermined PID sentinel `-1`. -/
def pUndetermined : Particle :=
  { semantic_type := TRACK_SHP
    pid_scores := []
    primary_scores := []
    pid := -1
    is_primary := false
    is_contained := true
    calo_ke := -1
    csda_ke := -1
    mcs_ke := -1
    start_dir := ⟨F.ninf, F.fin 0, F.fin 0⟩
    momentum := none }

/-- The spec's §8 `best`-policy track: contained, `csda_ke = 50`,
`mcs_ke = -1`, `calo_ke = 45`, muon PID, direction (0, 0, 1). -/
def pGoodTrack : Particle :=
  { semantic_type := TRACK_SHP
    pid_scores := []
    primary_scores := []
    pid := (MUON_PID : ℤ)
    is_primary := true
    is_contained := true
    calo_ke := 45
    csda_ke := 50
    mcs_ke := -1
    start_dir := ⟨F.fin 0, F.fin 0, F.fin 1⟩
    momentum := none }

/-- A shape → allowed-primary table holding an index (5) past the length of
a 2-entry `primary_scores` vector. -/
def oorPrimaryTable : ℕ → List ℕ := fun _ => [0, 1, 5]

/-- A shape → allowed-PID table holding an index (7) past the length of
the score vectors in play. -/
def oorPidTable : ℕ → List ℕ := fun _ => [0, 7]

/-- A shower-shaped particle with 2-entry score vectors, used with the
out-of-range tables. -/
def pShort : Particle :=
  { semantic_type := 0
    pid_scores := [F.fin (1/2), F.fin (1/2)]
    primary_scores := [F.fin (3/10), F.fin (7/10)]
    pid := -1
    is_primary := false
    is_contained := true
    calo_ke := -1
    csda_ke := -1
    mcs_ke := -1
    start_dir := ⟨F.fin 0, F.fin 0, F.fin 1⟩
    momentum := none }

/-- A track whose masked PID mass is positive; used as the concrete
instance for the enforcer's invariants. -/
def pEnforce : Particle :=
  { semantic_type := TRACK_SHP
    pid_scores := [F.fin (1/10), F.fin (1/10), F.fin (2/5), F.fin (1/5), F.fin (1/5)]
    primary_scores := [F.fin (3/10), F.fin (7/10)]
    pid := -1
    is_primary := false
    is_contained := true
    calo_ke := -1
    csda_ke := -1
    mcs_ke := -1
    start_dir := ⟨F.fin 0, F.fin 0, F.fin 1⟩
    momentum := none }

/-- The finite value of a float, zero on the special values. -/
def toQ : F → ℚ
  | .fin q => q
  | _ => 0

/-- The rational view of a vector of floats. -/
def qList (l : List F) : List ℚ := l.map toQ

/-- Every entry is a finite non-negative value (what a valid probability
vector looks like in the model). -/
def allFinNonneg (l : List F) : Prop := ∀ x ∈ l, ∃ r, x = F.fin r ∧ 0 ≤ r

/-- Preconditions of the normal (positive surviving mass) regime of the
Semantic-Consistency Enforcer for one particle: both score vectors are
finite non-negative, both masked masses are positive, and the allowed
primary indices are in range (the source does not filter them). -/
def EnforcerPre (shpToPid shpToPrimary : ℕ → List ℕ) (p : Particle) : Prop :=
  allFinNonneg p.pid_scores ∧ allFinNonneg p.primary_scores ∧
  0 < maskedMass ((shpToPid p.semantic_type).filter (· < p.pid_scores.length))
        (qList p.pid_scores) ∧
  0 < maskedMass (shpToPrimary p.semantic_type) (qList p.primary_scores) ∧
  ∀ i ∈ shpToPrimary p.semantic_type, i < p.primary_scores.length

/-- The enforcer's output on `pEnforce` with the modelled tables. -/
def pEnforceOut : Particle :=
  { pEnforce with
      pid_scores := [F.fin 0, F.fin 0, F.fin (1/2), F.fin (1/4), F.fin (1/4)]
      primary_scores := [F.fin (3/10), F.fin (7/10)] }

/-! ## Theorems -/

/-! ### Lemmas on the rational views of masking and renormalization -/

lemma sumF_map_fin (l : List ℚ) : sumF (l.map F.fin) = F.fin l.sum := by
  induction l with
  | nil => rfl
  | cons a l ih =>
    simp only [List.map_cons, sumF, List.foldr_cons, List.sum_cons]
    rw [show List.foldr F.add (F.fin 0) (l.map F.fin) = sumF (l.map F.fin) from rfl, ih]
    rfl

lemma fin_getD (l : List ℚ) (i : ℕ) :
    (l.map F.fin).getD i (F.fin 0) = F.fin (l.getD i 0) := by
  induction l generalizing i with
  | nil => cases i <;> rfl
  | cons a l ih => cases i with
    | zero => rfl
    | succ j => exact ih j

lemma sum_map_div (l : List ℚ) (s : ℚ) : (l.map (fun q => q / s)).sum = l.sum / s := by
  induction l with
  | nil => simp
  | cons a l ih => simp [ih, add_div]

lemma maskAssign_map_fin (range : List ℕ) (l : List ℚ)
    (h : ∀ i ∈ range, i < l.length) :
    maskAssign range (l.map F.fin) = some ((maskQ range l).map F.fin) := by
  unfold maskAssign maskQ
  rw [if_pos (by simp only [List.all_eq_true, List.length_map, decide_eq_true_eq]; exact h)]
  simp only [List.length_map, List.map_map]
  refine congrArg some (List.map_congr_left fun i hi => ?_)
  by_cases hmem : i ∈ range
  · simp [hmem, fin_getD]
  · simp [hmem]

lemma renorm_map_fin (l : List ℚ) (h : l.sum ≠ 0) :
    renorm (l.map F.fin) = (l.map (fun q => q / l.sum)).map F.fin := by
  unfold renorm
  rw [sumF_map_fin]
  simp only [List.map_map]
  refine List.map_congr_left fun q _ => ?_
  simp [F.div, h]

lemma maskQ_length (range : List ℕ) (src : List ℚ) :
    (maskQ range src).length = src.length := by
  simp [maskQ]

lemma maskQ_getD (range : List ℕ) (src : List ℚ) (i : ℕ) (h : i < src.length) :
    (maskQ range src).getD i 0 = if i ∈ range then src.getD i 0 else 0 := by
  rw [List.getD_eq_getElem _ _ (by simpa [maskQ_length] using h)]
  simp [maskQ]

lemma maskQ_nonneg (range : List ℕ) (src : List ℚ) (h : ∀ q ∈ src, 0 ≤ q) :
    ∀ q ∈ maskQ range src, 0 ≤ q := by
  intro q hq
  unfold maskQ at hq
  obtain ⟨i, hi, rfl⟩ := List.mem_map.mp hq
  by_cases hmem : i ∈ range
  · simp only [hmem, if_true]
    have hilen : i < src.length := List.mem_range.mp hi
    rw [List.getD_eq_getElem _ _ hilen]
    exact h _ (List.getElem_mem hilen)
  · simp [hmem]

lemma maskedMass_nonneg (range : List ℕ) (src : List ℚ) (h : ∀ q ∈ src, 0 ≤ q) :
    0 ≤ maskedMass range src :=
  List.sum_nonneg (maskQ_nonneg range src h)

lemma maskNorm_length (range : List ℕ) (src : List ℚ) :
    (maskNorm range src).length = src.length := by
  simp [maskNorm, maskQ_length]

lemma maskNorm_sum (range : List ℕ) (src : List ℚ)
    (h : maskedMass range src ≠ 0) : (maskNorm range src).sum = 1 := by
  unfold maskNorm
  rw [sum_map_div]
  exact div_self h

lemma maskNorm_getD (range : List ℕ) (src : List ℚ) (i : ℕ) (h : i < src.length) :
    (maskNorm range src).getD i 0 =
      (maskQ range src).getD i 0 / maskedMass range src := by
  rw [List.getD_eq_getElem _ _ (by simpa [maskNorm_length] using h),
    List.getD_eq_getElem _ _ (by simpa [maskQ_length] using h)]
  simp [maskNorm]

lemma maskNorm_outside (range : List ℕ) (src : List ℚ) (i : ℕ)
    (h : i < src.length) (hout : i ∉ range) :
    (maskNorm range src).getD i 0 = 0 := by
  rw [maskNorm_getD range src i h, maskQ_getD range src i h, if_neg hout, zero_div]

lemma maskNorm_nonneg (range : List ℕ) (src : List ℚ) (hnn : ∀ q ∈ src, 0 ≤ q)
    (hS : 0 < maskedMass range src) : ∀ q ∈ maskNorm range src, 0 ≤ q := by
  intro q hq
  unfold maskNorm at hq
  obtain ⟨r, hr, rfl⟩ := List.mem_map.mp hq
  exact div_nonneg (maskQ_nonneg range src hnn r hr) (le_of_lt hS)

lemma maskQ_of_support (range : List ℕ) (src : List ℚ)
    (h : ∀ i, i < src.length → i ∉ range → src.getD i 0 = 0) :
    maskQ range src = src := by
  refine List.ext_get (maskQ_length range src) fun i h1 h2 => ?_
  simp only [List.get_eq_getElem]
  rw [← List.getD_eq_getElem (maskQ range src) 0 h1, ← List.getD_eq_getElem src 0 h2,
    maskQ_getD range src i h2]
  by_cases hmem : i ∈ range
  · rw [if_pos hmem]
  · rw [if_neg hmem, h i h2 hmem]

lemma maskNorm_of_normalized (range : List ℕ) (src : List ℚ)
    (hsupp : ∀ i, i < src.length → i ∉ range → src.getD i 0 = 0)
    (hmass : maskedMass range src = 1) : maskNorm range src = src := by
  unfold maskNorm
  rw [hmass, maskQ_of_support range src hsupp]
  simp

/-- C1.  Refuted as stated; the code contradicts its own method docstring.
The kinetic-energy selection of `MomentumProcessor.process` tests
`(method == 'csda' or p.is_contained)`, not
`(method == 'csda' or (method == 'best' and p.is_contained))`: on a
contained track with a positive CSDA estimate, methods `'calo'` and `'mcs'`
both resolve the CSDA estimate (50) even though the docstring says `'calo'`
uses calorimetry (45) exclusively and `'mcs'` picks MCS if available. -/
theorem calo_and_mcs_use_csda_on_contained_track :
    MomentumProcessor.kineticEnergy .calo pContainedTrack = pContainedTrack.csda_ke ∧
    MomentumProcessor.kineticEnergy .mcs pContainedTrack = pContainedTrack.csda_ke ∧
    pContainedTrack.csda_ke ≠ pContainedTrack.calo_ke := by
  refine ⟨?_, ?_, ?_⟩ <;>
    norm_num [MomentumProcessor.kineticEnergy, pContainedTrack, TRACK_SHP]

/-- C2.  Refuted: on a particle whose masked score vector has zero surviving
mass, `ParticleSemanticsProcessor.process` raises nothing and silently
writes the all-NaN vector produced by the 0/0 renormalization back into
`pid_scores`. -/
theorem zero_mass_mask_writes_nan_silently :
    ParticleSemanticsProcessor.processOne SHP_TO_PID SHP_TO_PRIMARY ⟨true, true⟩ pZeroMass =
      .ok { pZeroMass with
              pid_scores := [F.nan, F.nan, F.nan, F.nan, F.nan]
              primary_scores := [F.fin (3/10), F.fin (7/10)] } := by
  norm_num [ParticleSemanticsProcessor.processOne,
    ParticleSemanticsProcessor.enforcePidStep,
    ParticleSemanticsProcessor.enforcePrimaryStep, Except.bind,
    maskAssign, renorm, sumF, SHP_TO_PID, SHP_TO_PRIMARY, pZeroMass, TRACK_SHP,
    PHOTON_PID, ELECTRON_PID, MUON_PID, PION_PID, PROTON_PID,
    List.range_succ, F.div, F.add]

/-- C4.  The threshold walk tests entries in the mapping's given order,
assigning the entry's class and stopping as soon as the running score meets
the threshold, and otherwise rescaling all scores by `1/(1 - score)` before
the next entry; on the spec's §8 example (thresholds muon 0.8, pion 0.5,
proton 0.0 against a track scoring muon 0.3, pion 0.6, proton 0.1) the
assigned PID is the pion. -/
theorem threshold_walk_order_and_example :
    (∀ (k : ℕ) (v : ℚ) (rest : List (ℕ × ℚ)) (scores : List F) (s : F),
        scores[k]? = some s →
        ParticlePropertiesProcessor.walkAssign ((k, v) :: rest) scores =
          if F.ge s (F.fin v) then .ok (some k)
          else ParticlePropertiesProcessor.walkAssign rest
            (scores.map (fun x => F.mul x (F.div (F.fin 1) (F.sub (F.fin 1) s))))) ∧
    ParticlePropertiesProcessor.processOne walkExampleConfig pWalk =
      .ok { pWalk with pid := (PION_PID : ℤ) } := by
  constructor
  · intro k v rest scores s h
    simp [ParticlePropertiesProcessor.walkAssign, h]
  · norm_num [ParticlePropertiesProcessor.processOne,
      ParticlePropertiesProcessor.adjustPid,
      ParticlePropertiesProcessor.adjustPrimary,
      ParticlePropertiesProcessor.walkAssign, Except.bind,
      walkExampleConfig, pWalk, PION_PID, MUON_PID, PROTON_PID, TRACK_SHP,
      F.ge, F.le, F.mul, F.div, F.sub, F.add, F.neg]

/-- Witness for `threshold_walk_order_and_example`: the walk-step equation
instantiated at the first entry of the spec's §8 example. -/
theorem threshold_walk_order_and_example_witness :
    pWalk.pid_scores[MUON_PID]? = some (F.fin (3/10)) ∧
    ParticlePropertiesProcessor.walkAssign
        ((MUON_PID, 4/5) :: [(PION_PID, 1/2), (PROTON_PID, 0)]) pWalk.pid_scores =
      (if F.ge (F.fin (3/10)) (F.fin (4/5)) then Except.ok (some MUON_PID)
       else ParticlePropertiesProcessor.walkAssign [(PION_PID, 1/2), (PROTON_PID, 0)]
         (pWalk.pid_scores.map
           (fun x => F.mul x (F.div (F.fin 1) (F.sub (F.fin 1) (F.fin (3/10))))))) :=
  ⟨rfl,
    threshold_walk_order_and_example.1 MUON_PID (4/5) [(PION_PID, 1/2), (PROTON_PID, 0)]
      pWalk.pid_scores (F.fin (3/10)) rfl⟩

/-- C5.  If the threshold mapping selected by the particle's shape is
non-empty and the walk exhausts it without assigning, the adjuster raises
the `assert assigned` failure instead of leaving `pid` silently
unassigned. -/
theorem exhausted_walk_raises (cfg : PropertiesConfig) (p : Particle)
    (hne : (if p.semantic_type = TRACK_SHP then cfg.track_pid_thresholds
            else cfg.em_pid_thresholds) ≠ [])
    (hw : ParticlePropertiesProcessor.walkAssign
            (if p.semantic_type = TRACK_SHP then cfg.track_pid_thresholds
             else cfg.em_pid_thresholds) p.pid_scores = .ok none) :
    ParticlePropertiesProcessor.processOne cfg p = .error .assertFailed := by
  have h1 : ParticlePropertiesProcessor.adjustPid cfg p = .error .assertFailed := by
    unfold ParticlePropertiesProcessor.adjustPid
    dsimp only
    rw [if_pos (by simpa [List.length_eq_zero] using hne), hw]
  simp [ParticlePropertiesProcessor.processOne, h1, Except.bind]

/-- Witness for `exhausted_walk_raises`: a track failing the single 0.9
threshold of a mapping without a zero-threshold catch-all. -/
theorem exhausted_walk_raises_witness :
    ((if pUncovered.semantic_type = TRACK_SHP then noCatchAllConfig.track_pid_thresholds
      else noCatchAllConfig.em_pid_thresholds) ≠ []) ∧
    ParticlePropertiesProcessor.walkAssign
        (if pUncovered.semantic_type = TRACK_SHP then noCatchAllConfig.track_pid_thresholds
         else noCatchAllConfig.em_pid_thresholds) pUncovered.pid_scores = .ok none ∧
    ParticlePropertiesProcessor.processOne noCatchAllConfig pUncovered =
      .error .assertFailed :=
  ⟨by norm_num [pUncovered, TRACK_SHP, noCatchAllConfig],
    by norm_num [ParticlePropertiesProcessor.walkAssign, pUncovered, TRACK_SHP,
      noCatchAllConfig, PHOTON_PID, F.ge, F.le, F.mul, F.div, F.sub, F.add, F.neg],
    exhausted_walk_raises noCatchAllConfig pUncovered
      (by norm_num [pUncovered, TRACK_SHP, noCatchAllConfig])
      (by norm_num [ParticlePropertiesProcessor.walkAssign, pUncovered, TRACK_SHP,
        noCatchAllConfig, PHOTON_PID, F.ge, F.le, F.mul, F.div, F.sub, F.add, F.neg])⟩

/-- C6 counterexample.  The claim's "less than or equal to zero" fails at a
resolved kinetic energy of exactly zero: the source only tests `ke < 0.`,
so a shower with `calo_ke = 0` raises nothing and gets its momentum
filled. -/
theorem zero_ke_accepted :
    MomentumProcessor.processOne PID_MASSES .best pKeZero =
      .ok { pKeZero with momentum := some (0, pKeZero.start_dir) } ∧
    MomentumProcessor.kineticEnergy .best pKeZero ≤ 0 := by
  refine ⟨?_, ?_⟩ <;>
    norm_num [MomentumProcessor.processOne, MomentumProcessor.kineticEnergy,
      PID_MASSES, pKeZero, TRACK_SHP, ELECTRON_PID]

/-- C6 amended.  For a particle with a resolved, supported PID whose
resolved kinetic energy is negative, `MomentumProcessor.process` raises the
missing-data error (so the particle's momentum is never written). -/
theorem negative_ke_raises_missing_data (masses : ℤ → Option ℚ) (method : Method)
    (p : Particle) (m : ℚ) (hpid : 0 ≤ p.pid) (hm : masses p.pid = some m)
    (hke : MomentumProcessor.kineticEnergy method p < 0) :
    MomentumProcessor.processOne masses method p = .error .missingKE := by
  unfold MomentumProcessor.processOne
  rw [if_neg (not_lt.mpr hpid), hm]
  exact if_pos hke

/-- Witness for `negative_ke_raises_missing_data`: the spec's §8 contained
track with `csda_ke = mcs_ke = calo_ke = -1`. -/
theorem negative_ke_raises_missing_data_witness :
    (0 : ℤ) ≤ pAllNegKe.pid ∧ PID_MASSES pAllNegKe.pid = some (10566 / 100) ∧
    MomentumProcessor.kineticEnergy .best pAllNegKe < 0 ∧
    MomentumProcessor.processOne PID_MASSES .best pAllNegKe = .error .missingKE :=
  ⟨by norm_num [pAllNegKe, MUON_PID], by norm_num [PID_MASSES, pAllNegKe, MUON_PID],
    by norm_num [MomentumProcessor.kineticEnergy, pAllNegKe, TRACK_SHP],
    negative_ke_raises_missing_data PID_MASSES .best pAllNegKe (10566 / 100)
      (by norm_num [pAllNegKe, MUON_PID]) (by norm_num [PID_MASSES, pAllNegKe, MUON_PID])
      (by norm_num [MomentumProcessor.kineticEnergy, pAllNegKe, TRACK_SHP])⟩

/-- C7 counterexample.  The claimed "if and only if" fails in the
"positive kinetic energy" direction: an event whose single particle has a
resolved PID, a resolved kinetic energy of exactly zero (not positive) and
a valid direction completes with that particle's momentum filled. -/
theorem momentum_filled_without_positive_ke :
    MomentumProcessor.process PID_MASSES .best [pKeZeroB] =
      .ok [{ pKeZeroB with momentum := some (0, pKeZeroB.start_dir) }] ∧
    ¬ 0 < MomentumProcessor.kineticEnergy .best pKeZeroB := by
  refine ⟨?_, ?_⟩ <;>
    norm_num [MomentumProcessor.process, MomentumProcessor.processOne,
      MomentumProcessor.kineticEnergy, PID_MASSES, pKeZeroB, TRACK_SHP, PROTON_PID]

/-- C8 counterexample.  Only the PID path filters out-of-range allowed
indices: a shape → allowed-primary table carrying index 5 against a 2-entry
`primary_scores` makes `ParticleSemanticsProcessor.process` raise an
IndexError instead of dropping the index. -/
theorem primary_out_of_range_raises :
    ParticleSemanticsProcessor.processOne SHP_TO_PID oorPrimaryTable ⟨true, true⟩ pShort =
      .error .indexError := by
  norm_num [ParticleSemanticsProcessor.processOne,
    ParticleSemanticsProcessor.enforcePidStep,
    ParticleSemanticsProcessor.enforcePrimaryStep, Except.bind,
    maskAssign, renorm, sumF, SHP_TO_PID, oorPrimaryTable, pShort,
    PHOTON_PID, ELECTRON_PID, List.range_succ, F.div, F.add]

/-- C10.  The threshold walk mutates only a private copy of the scores
(`np.copy`): whenever `ParticlePropertiesProcessor.process` succeeds on a
particle it rewrites only `pid` and `is_primary`, leaving `pid_scores`,
`primary_scores` and every other field untouched even when rescaling steps
occurred during the walk. -/
lemma adjustPid_ok_shape {cfg : PropertiesConfig} {p q : Particle}
    (h : ParticlePropertiesProcessor.adjustPid cfg p = .ok q) :
    q = { p with pid := q.pid } := by
  unfold ParticlePropertiesProcessor.adjustPid at h
  dsimp only at h
  repeat' split at h
  all_goals
    first
      | exact Except.noConfusion h
      | (injection h with h'; subst h'; rfl)

lemma adjustPrimary_ok_shape {cfg : PropertiesConfig} {p q : Particle}
    (h : ParticlePropertiesProcessor.adjustPrimary cfg p = .ok q) :
    q = { p with is_primary := q.is_primary } := by
  unfold ParticlePropertiesProcessor.adjustPrimary at h
  repeat' split at h
  all_goals
    first
      | exact Except.noConfusion h
      | (injection h with h'; subst h'; rfl)

theorem adjuster_preserves_scores (cfg : PropertiesConfig) (p q : Particle)
    (h : ParticlePropertiesProcessor.processOne cfg p = .ok q) :
    q.pid_scores = p.pid_scores ∧ q.primary_scores = p.primary_scores ∧
    q.semantic_type = p.semantic_type ∧ q.is_contained = p.is_contained ∧
    q.calo_ke = p.calo_ke ∧ q.csda_ke = p.csda_ke ∧ q.mcs_ke = p.mcs_ke ∧
    q.start_dir = p.start_dir ∧ q.momentum = p.momentum := by
  unfold ParticlePropertiesProcessor.processOne at h
  cases hA : ParticlePropertiesProcessor.adjustPid cfg p with
  | error e => rw [hA] at h; exact Except.noConfusion h
  | ok p1 =>
    rw [hA] at h
    have hB : ParticlePropertiesProcessor.adjustPrimary cfg p1 = .ok q := h
    have e1 := adjustPid_ok_shape hA
    have e2 := adjustPrimary_ok_shape hB
    rw [e1] at e2
    rw [e2]
    exact ⟨rfl, rfl, rfl, rfl, rfl, rfl, rfl, rfl, rfl⟩

/-- Witness for `adjuster_preserves_scores`: the §8 walk example, in which
one rescaling step occurs before the pion is assigned. -/
theorem adjuster_preserves_scores_witness :
    ParticlePropertiesProcessor.processOne walkExampleConfig pWalk =
      .ok { pWalk with pid := (PION_PID : ℤ) } ∧
    ({ pWalk with pid := (PION_PID : ℤ) } : Particle).pid_scores = pWalk.pid_scores :=
  ⟨by norm_num [ParticlePropertiesProcessor.processOne,
      ParticlePropertiesProcessor.adjustPid,
      ParticlePropertiesProcessor.adjustPrimary,
      ParticlePropertiesProcessor.walkAssign, Except.bind,
      walkExampleConfig, pWalk, PION_PID, MUON_PID, PROTON_PID, TRACK_SHP,
      F.ge, F.le, F.mul, F.div, F.sub, F.add, F.neg],
    (adjuster_preserves_scores walkExampleConfig pWalk
      { pWalk with pid := (PION_PID : ℤ) }
      (by norm_num [ParticlePropertiesProcessor.processOne,
        ParticlePropertiesProcessor.adjustPid,
        ParticlePropertiesProcessor.adjustPrimary,
        ParticlePropertiesProcessor.walkAssign, Except.bind,
        walkExampleConfig, pWalk, PION_PID, MUON_PID, PROTON_PID, TRACK_SHP,
        F.ge, F.le, F.mul, F.div, F.sub, F.add, F.neg])).1⟩

/-! ### The enforcer in the positive-mass regime -/

lemma eq_map_toQ {l : List F} (h : allFinNonneg l) : l = (qList l).map F.fin := by
  have hcongr : l.map (fun x => F.fin (toQ x)) = l.map id := by
    refine List.map_congr_left fun x hx => ?_
    obtain ⟨r, rfl, _⟩ := h x hx
    rfl
  simpa [qList, List.map_map, Function.comp] using hcongr.symm

lemma qList_length (l : List F) : (qList l).length = l.length := by
  simp [qList]

lemma qList_nonneg {l : List F} (h : allFinNonneg l) : ∀ r ∈ qList l, 0 ≤ r := by
  intro r hr
  obtain ⟨x, hx, rfl⟩ := List.mem_map.mp hr
  obtain ⟨s, rfl, hs⟩ := h x hx
  exact hs

lemma enforcePidStep_spec (tp : ℕ → List ℕ) (cfg : SemanticsConfig) (p : Particle)
    (l : List ℚ) (hp : p.pid_scores = l.map F.fin) (hcfg : cfg.enforce_pid = true)
    (hS : maskedMass ((tp p.semantic_type).filter (· < l.length)) l ≠ 0) :
    ParticleSemanticsProcessor.enforcePidStep tp cfg p =
      .ok { p with pid_scores :=
        (maskNorm ((tp p.semantic_type).filter (· < l.length)) l).map F.fin } := by
  unfold ParticleSemanticsProcessor.enforcePidStep
  rw [if_pos hcfg]
  dsimp only
  rw [hp, List.length_map,
    maskAssign_map_fin _ _ (fun i hi => by simpa using (List.mem_filter.mp hi).2)]
  dsimp only
  rw [renorm_map_fin _ hS]
  rfl

lemma enforcePrimaryStep_spec (tpr : ℕ → List ℕ) (cfg : SemanticsConfig)
    (p : Particle) (l : List ℚ) (hp : p.primary_scores = l.map F.fin)
    (hcfg : cfg.enforce_primary = true)
    (hrr : ∀ i ∈ tpr p.semantic_type, i < l.length)
    (hS : maskedMass (tpr p.semantic_type) l ≠ 0) :
    ParticleSemanticsProcessor.enforcePrimaryStep tpr cfg p =
      .ok { p with primary_scores :=
        (maskNorm (tpr p.semantic_type) l).map F.fin } := by
  unfold ParticleSemanticsProcessor.enforcePrimaryStep
  rw [if_pos hcfg, hp, maskAssign_map_fin _ _ hrr]
  dsimp only
  rw [renorm_map_fin _ hS]
  rfl

lemma semantics_processOne_spec (tp tpr : ℕ → List ℕ) (p : Particle)
    (pidQ primQ : List ℚ)
    (hp : p.pid_scores = pidQ.map F.fin) (hpr : p.primary_scores = primQ.map F.fin)
    (hS : maskedMass ((tp p.semantic_type).filter (· < pidQ.length)) pidQ ≠ 0)
    (hS2 : maskedMass (tpr p.semantic_type) primQ ≠ 0)
    (hrr : ∀ i ∈ tpr p.semantic_type, i < primQ.length) :
    ParticleSemanticsProcessor.processOne tp tpr ⟨true, true⟩ p =
      .ok { p with
        pid_scores :=
          (maskNorm ((tp p.semantic_type).filter (· < pidQ.length)) pidQ).map F.fin
        primary_scores := (maskNorm (tpr p.semantic_type) primQ).map F.fin } := by
  unfold ParticleSemanticsProcessor.processOne
  rw [enforcePidStep_spec tp _ p pidQ hp rfl hS]
  exact enforcePrimaryStep_spec tpr _ _ primQ hpr rfl hrr hS2

lemma maskedMass_maskNorm (range : List ℕ) (src : List ℚ)
    (h : maskedMass range src ≠ 0) :
    maskedMass range (maskNorm range src) = 1 := by
  have hsupp : ∀ i, i < (maskNorm range src).length → i ∉ range →
      (maskNorm range src).getD i 0 = 0 := fun i hi hout =>
    maskNorm_outside range src i (by simpa [maskNorm_length] using hi) hout
  unfold maskedMass
  rw [maskQ_of_support _ _ hsupp]
  exact maskNorm_sum range src h

lemma maskNorm_idem (range : List ℕ) (src : List ℚ)
    (h : maskedMass range src ≠ 0) :
    maskNorm range (maskNorm range src) = maskNorm range src :=
  maskNorm_of_normalized _ _
    (fun i hi hout =>
      maskNorm_outside range src i (by simpa [maskNorm_length] using hi) hout)
    (maskedMass_maskNorm range src h)

/-- C3.  In the positive-surviving-mass regime, the enforcer with both flags
enabled leaves each particle with `pid_scores` summing to exactly 1, zero at
every index outside the shape's allowed PID set, and with non-negative
finite entries — and the same for `primary_scores` against the allowed
primary set. -/
theorem enforcer_output_invariant
    (shpToPid shpToPrimary : ℕ → List ℕ) (p : Particle) (pidQ primQ : List ℚ)
    (hp : p.pid_scores = pidQ.map F.fin) (hpr : p.primary_scores = primQ.map F.fin)
    (hpnn : ∀ r ∈ pidQ, 0 ≤ r) (hprnn : ∀ r ∈ primQ, 0 ≤ r)
    (hS : 0 < maskedMass ((shpToPid p.semantic_type).filter (· < pidQ.length)) pidQ)
    (hS2 : 0 < maskedMass (shpToPrimary p.semantic_type) primQ)
    (hrr : ∀ i ∈ shpToPrimary p.semantic_type, i < primQ.length) :
    ∃ q, ParticleSemanticsProcessor.processOne shpToPid shpToPrimary ⟨true, true⟩ p =
        .ok q ∧
      sumF q.pid_scores = F.fin 1 ∧ sumF q.primary_scores = F.fin 1 ∧
      (∀ i (h1 : i < q.pid_scores.length), i ∉ shpToPid p.semantic_type →
        q.pid_scores.get ⟨i, h1⟩ = F.fin 0) ∧
      (∀ i (h2 : i < q.primary_scores.length), i ∉ shpToPrimary p.semantic_type →
        q.primary_scores.get ⟨i, h2⟩ = F.fin 0) ∧
      allFinNonneg q.pid_scores ∧ allFinNonneg q.primary_scores := by
  refine ⟨_, semantics_processOne_spec shpToPid shpToPrimary p pidQ primQ hp hpr
    (ne_of_gt hS) (ne_of_gt hS2) hrr, ?_, ?_, ?_, ?_, ?_, ?_⟩
  · dsimp only
    rw [sumF_map_fin, maskNorm_sum _ _ (ne_of_gt hS)]
  · dsimp only
    rw [sumF_map_fin, maskNorm_sum _ _ (ne_of_gt hS2)]
  · intro i h1 hout
    have hi : i < pidQ.length := by
      simpa [maskNorm_length] using h1
    have hNout : i ∉ (shpToPid p.semantic_type).filter (· < pidQ.length) :=
      fun hf => hout (List.mem_filter.mp hf).1
    simp only [List.get_eq_getElem, List.getElem_map]
    rw [← List.getD_eq_getElem _ 0 (by simpa [maskNorm_length] using hi),
      maskNorm_outside _ _ _ hi hNout]
  · intro i h2 hout
    have hi : i < primQ.length := by
      simpa [maskNorm_length] using h2
    simp only [List.get_eq_getElem, List.getElem_map]
    rw [← List.getD_eq_getElem _ 0 (by simpa [maskNorm_length] using hi),
      maskNorm_outside _ _ _ hi hout]
  · intro x hx
    obtain ⟨r, hr, rfl⟩ := List.mem_map.mp hx
    exact ⟨r, rfl, maskNorm_nonneg _ _ hpnn hS r hr⟩
  · intro x hx
    obtain ⟨r, hr, rfl⟩ := List.mem_map.mp hx
    exact ⟨r, rfl, maskNorm_nonneg _ _ hprnn hS2 r hr⟩

/-- Witness for `enforcer_output_invariant`: a track with 4/5 of its PID
mass on the track classes. -/
theorem enforcer_output_invariant_witness :
    pEnforce.pid_scores = ([1/10, 1/10, 2/5, 1/5, 1/5] : List ℚ).map F.fin ∧
    0 < maskedMass ((SHP_TO_PID pEnforce.semantic_type).filter
        (· < ([1/10, 1/10, 2/5, 1/5, 1/5] : List ℚ).length))
        [1/10, 1/10, 2/5, 1/5, 1/5] ∧
    0 < maskedMass (SHP_TO_PRIMARY pEnforce.semantic_type) [3/10, 7/10] ∧
    (∃ q, ParticleSemanticsProcessor.processOne SHP_TO_PID SHP_TO_PRIMARY
        ⟨true, true⟩ pEnforce = .ok q ∧
      sumF q.pid_scores = F.fin 1 ∧ sumF q.primary_scores = F.fin 1 ∧
      (∀ i (h1 : i < q.pid_scores.length), i ∉ SHP_TO_PID pEnforce.semantic_type →
        q.pid_scores.get ⟨i, h1⟩ = F.fin 0) ∧
      (∀ i (h2 : i < q.primary_scores.length),
        i ∉ SHP_TO_PRIMARY pEnforce.semantic_type →
        q.primary_scores.get ⟨i, h2⟩ = F.fin 0) ∧
      allFinNonneg q.pid_scores ∧ allFinNonneg q.primary_scores) :=
  ⟨rfl,
    by norm_num [maskedMass, maskQ, SHP_TO_PID, pEnforce, TRACK_SHP,
      MUON_PID, PION_PID, PROTON_PID, List.range_succ],
    by norm_num [maskedMass, maskQ, SHP_TO_PRIMARY, pEnforce, TRACK_SHP,
      List.range_succ],
    enforcer_output_invariant SHP_TO_PID SHP_TO_PRIMARY pEnforce
      [1/10, 1/10, 2/5, 1/5, 1/5] [3/10, 7/10] rfl rfl
      (by norm_num) (by norm_num)
      (by norm_num [maskedMass, maskQ, SHP_TO_PID, pEnforce, TRACK_SHP,
        MUON_PID, PION_PID, PROTON_PID, List.range_succ])
      (by norm_num [maskedMass, maskQ, SHP_TO_PRIMARY, pEnforce, TRACK_SHP,
        List.range_succ])
      (by norm_num [SHP_TO_PRIMARY, pEnforce, TRACK_SHP])⟩

lemma semantics_processOne_idem (tp tpr : ℕ → List ℕ) (p q : Particle)
    (hpre : EnforcerPre tp tpr p)
    (h : ParticleSemanticsProcessor.processOne tp tpr ⟨true, true⟩ p = .ok q) :
    ParticleSemanticsProcessor.processOne tp tpr ⟨true, true⟩ q = .ok q := by
  obtain ⟨hfin, hfin2, hS, hS2, hrr⟩ := hpre
  have hne1 : maskedMass ((tp p.semantic_type).filter
      (· < (qList p.pid_scores).length)) (qList p.pid_scores) ≠ 0 := by
    simpa only [qList_length] using ne_of_gt hS
  have hne2 : maskedMass (tpr p.semantic_type) (qList p.primary_scores) ≠ 0 :=
    ne_of_gt hS2
  have hrr2 : ∀ i ∈ tpr p.semantic_type, i < (qList p.primary_scores).length := by
    simpa only [qList_length] using hrr
  have heq := semantics_processOne_spec tp tpr p (qList p.pid_scores)
    (qList p.primary_scores) (eq_map_toQ hfin) (eq_map_toQ hfin2) hne1 hne2 hrr2
  rw [heq] at h
  injection h with h'
  subst h'
  refine (semantics_processOne_spec tp tpr _
    (maskNorm ((tp p.semantic_type).filter (· < (qList p.pid_scores).length))
      (qList p.pid_scores))
    (maskNorm (tpr p.semantic_type) (qList p.primary_scores))
    rfl rfl ?_ ?_ ?_).trans ?_
  · dsimp only
    simp only [maskNorm_length]
    rw [maskedMass_maskNorm _ _ hne1]
    norm_num
  · dsimp only
    rw [maskedMass_maskNorm _ _ hne2]
    norm_num
  · dsimp only
    simp only [maskNorm_length]
    exact hrr2
  · dsimp only
    simp only [maskNorm_length]
    rw [maskNorm_idem _ _ hne1, maskNorm_idem _ _ hne2]

/-- C9.  Running the Semantic-Consistency Enforcer twice in a row yields the
same result as running it once: on an event whose particles are all in the
positive-surviving-mass regime, a second run maps the first run's output to
itself (exactly, since the model's rationals are exact). -/
theorem enforcer_idempotent (tp tpr : ℕ → List ℕ) (ps qs : List Particle)
    (hpre : ∀ p ∈ ps, EnforcerPre tp tpr p)
    (h : ParticleSemanticsProcessor.process tp tpr ⟨true, true⟩ ps = .ok qs) :
    ParticleSemanticsProcessor.process tp tpr ⟨true, true⟩ qs = .ok qs := by
  induction ps generalizing qs with
  | nil =>
    unfold ParticleSemanticsProcessor.process at h
    injection h with h'
    subst h'
    rfl
  | cons p ps ih =>
    unfold ParticleSemanticsProcessor.process at h
    cases hp1 : ParticleSemanticsProcessor.processOne tp tpr ⟨true, true⟩ p with
    | error e => rw [hp1] at h; exact Except.noConfusion h
    | ok q1 =>
      rw [hp1] at h
      dsimp only at h
      cases hps : ParticleSemanticsProcessor.process tp tpr ⟨true, true⟩ ps with
      | error e => rw [hps] at h; exact Except.noConfusion h
      | ok qs1 =>
        rw [hps] at h
        dsimp only at h
        injection h with h'
        subst h'
        unfold ParticleSemanticsProcessor.process
        rw [semantics_processOne_idem tp tpr p q1
            (hpre p (List.mem_cons_self p ps)) hp1,
          ih qs1 (fun r hr => hpre r (List.mem_cons_of_mem p hr)) hps]

/-- Witness for `enforcer_idempotent`: the singleton event `[pEnforce]`,
whose enforcer output is `pEnforceOut`, is mapped to itself by a second
run. -/
theorem enforcer_idempotent_witness :
    (∀ p ∈ [pEnforce], EnforcerPre SHP_TO_PID SHP_TO_PRIMARY p) ∧
    ParticleSemanticsProcessor.process SHP_TO_PID SHP_TO_PRIMARY ⟨true, true⟩
      [pEnforce] = .ok [pEnforceOut] ∧
    ParticleSemanticsProcessor.process SHP_TO_PID SHP_TO_PRIMARY ⟨true, true⟩
      [pEnforceOut] = .ok [pEnforceOut] :=
  ⟨by
      intro p hp
      rw [List.mem_singleton.mp hp]
      refine ⟨?_, ?_, ?_, ?_, ?_⟩ <;>
        norm_num [allFinNonneg, maskedMass, maskQ, qList, toQ, pEnforce,
          SHP_TO_PID, SHP_TO_PRIMARY, TRACK_SHP, MUON_PID, PION_PID, PROTON_PID,
          List.range_succ],
    by
      norm_num [ParticleSemanticsProcessor.process,
        ParticleSemanticsProcessor.processOne,
        ParticleSemanticsProcessor.enforcePidStep,
        ParticleSemanticsProcessor.enforcePrimaryStep, Except.bind,
        maskAssign, renorm, sumF, pEnforce, pEnforceOut, SHP_TO_PID,
        SHP_TO_PRIMARY, TRACK_SHP, MUON_PID, PION_PID, PROTON_PID,
        List.range_succ, F.div, F.add],
    enforcer_idempotent SHP_TO_PID SHP_TO_PRIMARY [pEnforce] [pEnforceOut]
      (by
        intro p hp
        rw [List.mem_singleton.mp hp]
        refine ⟨?_, ?_, ?_, ?_, ?_⟩ <;>
          norm_num [allFinNonneg, maskedMass, maskQ, qList, toQ, pEnforce,
            SHP_TO_PID, SHP_TO_PRIMARY, TRACK_SHP, MUON_PID, PION_PID,
            PROTON_PID, List.range_succ])
      (by
        norm_num [ParticleSemanticsProcessor.process,
          ParticleSemanticsProcessor.processOne,
          ParticleSemanticsProcessor.enforcePidStep,
          ParticleSemanticsProcessor.enforcePrimaryStep, Except.bind,
          maskAssign, renorm, sumF, pEnforce, pEnforceOut, SHP_TO_PID,
          SHP_TO_PRIMARY, TRACK_SHP, MUON_PID, PION_PID, PROTON_PID,
          List.range_succ, F.div, F.add])⟩

lemma momentum_processOne_spec (masses : ℤ → Option ℚ) (method : Method)
    (p q : Particle) (hm : p.momentum = none)
    (h : MomentumProcessor.processOne masses method p = .ok q) :
    ((q.momentum ≠ none) ↔
      (0 ≤ p.pid ∧ (masses p.pid).isSome ∧
       0 ≤ MomentumProcessor.kineticEnergy method p ∧ p.start_dir.x ≠ F.ninf)) ∧
    (p.pid < 0 → q = p) := by
  unfold MomentumProcessor.processOne at h
  split at h
  next hlt =>
    injection h with h'
    subst h'
    constructor
    · simp [hm, not_le.mpr hlt]
    · intro _
      rfl
  next hge =>
    cases hmass : masses p.pid with
    | none => rw [hmass] at h; exact Except.noConfusion h
    | some m =>
      rw [hmass] at h
      dsimp only at h
      split at h
      · exact Except.noConfusion h
      next hke =>
        split at h
        · exact Except.noConfusion h
        next hdir =>
          injection h with h'
          subst h'
          constructor
          · simp [hmass, hdir, not_lt.mp hge, not_lt.mp hke]
          · intro hc
            exact absurd hc hge

/-- C7 amended.  When `MomentumProcessor.process` completes on an event of
particles with momentum initially unset, a particle's momentum is filled iff
it had a resolved supported PID, a non-negative resolved kinetic energy (the
source rejects only `ke < 0`), and a direction whose first component is not
the `-inf` sentinel; a particle with `pid = -1` is skipped unchanged, with
no error raised for it. -/
theorem momentum_filled_iff_particles (masses : ℤ → Option ℚ) (method : Method)
    (ps qs : List Particle) (hm : ∀ p ∈ ps, p.momentum = none)
    (h : MomentumProcessor.process masses method ps = .ok qs) :
    List.Forall₂ (fun p q =>
      ((q.momentum ≠ none) ↔
        (0 ≤ p.pid ∧ (masses p.pid).isSome ∧
         0 ≤ MomentumProcessor.kineticEnergy method p ∧ p.start_dir.x ≠ F.ninf)) ∧
      (p.pid < 0 → q = p)) ps qs := by
  induction ps generalizing qs with
  | nil =>
    unfold MomentumProcessor.process at h
    injection h with h'
    subst h'
    exact List.Forall₂.nil
  | cons p ps ih =>
    unfold MomentumProcessor.process at h
    cases hp1 : MomentumProcessor.processOne masses method p with
    | error e => rw [hp1] at h; exact Except.noConfusion h
    | ok q1 =>
      rw [hp1] at h
      dsimp only at h
      cases hps : MomentumProcessor.process masses method ps with
      | error e => rw [hps] at h; exact Except.noConfusion h
      | ok qs1 =>
        rw [hps] at h
        dsimp only at h
        injection h with h'
        subst h'
        exact List.Forall₂.cons
          (momentum_processOne_spec masses method p q1
            (hm p (List.mem_cons_self p ps)) hp1)
          (ih qs1 (fun r hr => hm r (List.mem_cons_of_mem p hr)) hps)

/-- Witness for `momentum_filled_iff_particles`: an event with an
undetermined-PID particle (skipped, momentum unset) and the spec's §8 muon
track (momentum filled, squared magnitude (50+105.66)^2 - 105.66^2 =
13066). -/
theorem momentum_filled_iff_particles_witness :
    (∀ p ∈ [pUndetermined, pGoodTrack], p.momentum = none) ∧
    MomentumProcessor.process PID_MASSES .best [pUndetermined, pGoodTrack] =
      .ok [pUndetermined,
        { pGoodTrack with momentum := some (13066, pGoodTrack.start_dir) }] ∧
    List.Forall₂ (fun p q =>
      ((q.momentum ≠ none) ↔
        (0 ≤ p.pid ∧ (PID_MASSES p.pid).isSome ∧
         0 ≤ MomentumProcessor.kineticEnergy .best p ∧ p.start_dir.x ≠ F.ninf)) ∧
      (p.pid < 0 → q = p))
      [pUndetermined, pGoodTrack]
      [pUndetermined,
        { pGoodTrack with momentum := some (13066, pGoodTrack.start_dir) }] :=
  ⟨by
      intro p hp
      rcases List.mem_cons.mp hp with rfl | hp
      · rfl
      · rw [List.mem_singleton.mp hp]
        rfl,
    by
      norm_num [MomentumProcessor.process, MomentumProcessor.processOne,
        MomentumProcessor.kineticEnergy, PID_MASSES, pUndetermined, pGoodTrack,
        TRACK_SHP, MUON_PID],
    momentum_filled_iff_particles PID_MASSES .best [pUndetermined, pGoodTrack]
      [pUndetermined,
        { pGoodTrack with momentum := some (13066, pGoodTrack.start_dir) }]
      (by
        intro p hp
        rcases List.mem_cons.mp hp with rfl | hp
        · rfl
        · rw [List.mem_singleton.mp hp]
          rfl)
      (by
        norm_num [MomentumProcessor.process, MomentumProcessor.processOne,
          MomentumProcessor.kineticEnergy, PID_MASSES, pUndetermined, pGoodTrack,
          TRACK_SHP, MUON_PID])⟩

/-- C8 amended.  Out-of-range allowed indices are dropped for the PID
masking only: the PID block completes without error for every table and
particle (so PID masking alone never raises), while the primary block,
which applies no range filter, raises an IndexError whenever the allowed
primary set holds an index at or past the end of `primary_scores`. -/
theorem semantics_oor_pid_dropped_primary_raises :
    (∀ (tp tpr : ℕ → List ℕ) (p : Particle),
        ∃ q, ParticleSemanticsProcessor.processOne tp tpr ⟨true, false⟩ p = .ok q) ∧
    (∀ (tp tpr : ℕ → List ℕ) (p : Particle),
        (∃ i ∈ tpr p.semantic_type, p.primary_scores.length ≤ i) →
        ParticleSemanticsProcessor.processOne tp tpr ⟨true, true⟩ p =
          .error .indexError) := by
  have hpid : ∀ (tp : ℕ → List ℕ) (cfg : SemanticsConfig) (p : Particle),
      ∃ v, ParticleSemanticsProcessor.enforcePidStep tp cfg p = .ok v ∧
        v.primary_scores = p.primary_scores ∧ v.semantic_type = p.semantic_type := by
    intro tp cfg p
    unfold ParticleSemanticsProcessor.enforcePidStep
    by_cases hc : cfg.enforce_pid = true
    · rw [if_pos hc]
      dsimp only
      have hmask : ∃ w, maskAssign
          ((tp p.semantic_type).filter (· < p.pid_scores.length)) p.pid_scores =
            some w := by
        unfold maskAssign
        rw [if_pos (by
          simp only [List.all_eq_true]
          intro i hi
          exact (List.mem_filter.mp hi).2)]
        exact ⟨_, rfl⟩
      obtain ⟨w, hw⟩ := hmask
      rw [hw]
      exact ⟨_, rfl, rfl, rfl⟩
    · rw [if_neg hc]
      exact ⟨p, rfl, rfl, rfl⟩
  constructor
  · intro tp tpr p
    obtain ⟨v, hv, _, _⟩ := hpid tp ⟨true, false⟩ p
    refine ⟨v, ?_⟩
    unfold ParticleSemanticsProcessor.processOne
    rw [hv]
    rfl
  · rintro tp tpr p ⟨i, hi, hilen⟩
    obtain ⟨v, hv, hvp, hvs⟩ := hpid tp ⟨true, true⟩ p
    unfold ParticleSemanticsProcessor.processOne
    rw [hv]
    show ParticleSemanticsProcessor.enforcePrimaryStep tpr ⟨true, true⟩ v =
      .error .indexError
    unfold ParticleSemanticsProcessor.enforcePrimaryStep
    rw [if_pos rfl]
    have hmask : maskAssign (tpr v.semantic_type) v.primary_scores = none := by
      unfold maskAssign
      rw [if_neg (fun hall => ?_)]
      rw [List.all_eq_true] at hall
      have hd := hall i (by rw [hvs]; exact hi)
      rw [decide_eq_true_eq, hvp] at hd
      omega
    rw [hmask]

/-- Witness for `semantics_oor_pid_dropped_primary_raises`: a PID table
holding index 7 against 2-entry vectors completes (the index is dropped),
while a primary table holding index 5 raises. -/
theorem semantics_oor_witness :
    (∃ q, ParticleSemanticsProcessor.processOne oorPidTable SHP_TO_PRIMARY
        ⟨true, false⟩ pShort = .ok q) ∧
    (∃ i ∈ oorPrimaryTable pShort.semantic_type,
        pShort.primary_scores.length ≤ i) ∧
    ParticleSemanticsProcessor.processOne SHP_TO_PID oorPrimaryTable
      ⟨true, true⟩ pShort = .error .indexError :=
  ⟨semantics_oor_pid_dropped_primary_raises.1 oorPidTable SHP_TO_PRIMARY pShort,
    ⟨5, by norm_num [oorPrimaryTable, pShort], by norm_num [pShort]⟩,
    semantics_oor_pid_dropped_primary_raises.2 SHP_TO_PID oorPrimaryTable pShort
      ⟨5, by norm_num [oorPrimaryTable, pShort], by norm_num [pShort]⟩⟩
